import Mathlib

/-!
# das2: Buffer, the records and UnifiedVertex

A shallow embedding of `das2::Buffer`, `das2::BinString` and the tagged records of
Include/das2/DasStructures.h, and of `das2::obj::UnifiedVertex` with its hash
(Include/das2/converters/obj/DasConverter.h).

Conventions of the embedding.

* `uint32_t` values are natural numbers; every place where the source computes in
  `uint32_t` reduces modulo `2 ^ 32` explicitly.
* A heap block is the list of its bytes; the null pointer is `none`.
* `std::realloc` is not deterministic (it may fail, and the bytes it adds are
  indeterminate), so each call takes a `Heap` value that fixes both choices.
* A store that falls outside the allocated block has no defined behaviour in C++.
  The embedding leaves the block as it is and raises the `overrun` flag, so that
  the length field and the returned offset stay observable on such runs.
-/

set_option autoImplicit false

namespace das2

/-! ## Data model -/

/-- One `char` of storage. -/
abbrev Byte := Fin 256

/-- The modulus of `uint32_t` arithmetic. -/
def UINT32_MOD : Nat := 2 ^ 32

/-- Object representation of one value of an element type `T` with `sizeof(T) = s`.
Both overloads of `PushRange` cast the `char*` data pointer with `static_cast`, which is
well-formed for `T = char` only, so `s = 1` (see `chars`) is the one element size the
program has. -/
abbrev Elem (s : Nat) := { l : List Byte // l.length = s }

/-- The enumeration `StructureIdentifier` (DasStructures.h, lines 125-139). -/
inductive StructureIdentifier
  | Unknown
  | Buffer
  | Mesh
  | MorphTarget
  | MeshGroup
  | Node
  | Scene
  | SkeletonJoint
  | Skeleton
  | Animation
  | AnimationChannel
  | MaterialPhong
  | MaterialPbr
  deriving DecidableEq

/-- The private fields of `class Buffer` with their default member values
(lines 190-192): tag `Unknown`, length `0`, data pointer `nullptr`. -/
structure Buffer where
  m_bStructure : StructureIdentifier := StructureIdentifier.Unknown
  m_uLength : Nat := 0
  m_pData : Option (List Byte) := none

/-- The choices one call of `std::realloc` makes: whether it succeeds, and the
indeterminate value of each byte it adds (indexed by offset in the new block). -/
structure Heap where
  ok : Bool
  junk : Nat → Byte

/-- The call `std::realloc(p, size)`: on failure the null pointer; on success a block
of `size` bytes whose first `min(old size, size)` bytes are those of the old block. -/
def realloc (h : Heap) (p : Option (List Byte)) (size : Nat) : Option (List Byte) :=
  if h.ok then
    some ((List.range size).map fun i => ((p.getD [])[i]?).getD (h.junk i))
  else
    none

/-- A block under modification together with the record of stores outside of it. -/
structure Block where
  bytes : List Byte
  overrun : Bool

/-- Store one byte at offset `pos` of the block. -/
def Block.storeByte (m : Block) (pos : Nat) (v : Byte) : Block :=
  if pos < m.bytes.length then { m with bytes := m.bytes.set pos v }
  else { m with overrun := true }

/-- Store the bytes `vs` at offsets `pos, pos + 1, ...` of the block. -/
def Block.store (m : Block) (pos : Nat) : List Byte → Block
  | [] => m
  | v :: vs => (m.storeByte pos v).store (pos + 1) vs

/-- The copy loop of both `PushRange` overloads (lines 229-232 and 245-246):
element number `i` of the input is assigned to `static_cast<T*>(m_pData + uOffset)[i]`,
that is to the `s` bytes starting at byte offset `uOffset + i * s`. The cast compiles for
`char` elements only; there `s = 1` and element `i` is the byte at offset `uOffset + i`. -/
def storeRange {s : Nat} (uOffset : Nat) : List (Elem s) → Nat → Block → Block
  | [], _, m => m
  | x :: rest, i, m => storeRange uOffset rest (i + 1) (m.store (uOffset + i * s) x.val)

/-- How a call of `PushRange` ends. -/
inductive Ret
  | returned (uOffset : Nat)
  | threw
  | noValue
  deriving DecidableEq

/-- The buffer after a call, how the call ended, and whether a store of the copy
loop fell outside the block. `threw` is `throw std::bad_alloc()`; `noValue` is control
reaching the end of the function body without a `return` statement. A result with
`overrun = true` does not describe a run that completes: the behaviour of such a run is
undefined, and only its length field and the value its `return` statement names are
kept. -/
structure PushResult where
  buf : Buffer
  ret : Ret
  overrun : Bool

/-- The call returned the offset `a`: it reached `return uOffset` and no store of its copy
loop fell outside the block. -/
abbrev PushResult.Returns (r : PushResult) (a : Nat) : Prop :=
  r.ret = Ret.returned a ∧ r.overrun = false

/-- The call was successful: it did not throw and no store of its copy loop fell outside
the block. -/
abbrev PushResult.Successful (r : PushResult) : Prop :=
  r.ret ≠ Ret.threw ∧ r.overrun = false

/-- The member `Buffer::Size` (lines 249-251). -/
def Buffer.Size (b : Buffer) : Nat := b.m_uLength

/-- The iterator-pair overload `Buffer::PushRange(InputIt, InputIt)` (lines 218-235).
The range `[_first, _last)` is the list `xs` of its elements, each of size `s`. -/
def Buffer.PushRange {s : Nat} (h : Heap) (b : Buffer) (xs : List (Elem s)) : PushResult :=
  let uDistance := xs.length
  let uOffset := b.m_uLength
  let uLength := (b.m_uLength + uDistance % UINT32_MOD) % UINT32_MOD
  match realloc h b.m_pData uLength with
  | none =>
      { buf := { b with m_uLength := uLength, m_pData := none }, ret := Ret.threw,
        overrun := false }
  | some blk =>
      let m := storeRange uOffset xs 0 { bytes := blk, overrun := false }
      { buf := { b with m_uLength := uLength, m_pData := some m.bytes },
        ret := Ret.returned uOffset, overrun := m.overrun }

/-- The pointer overload `Buffer::PushRange(const T*, size_t)` (lines 237-247).
The argument `_pData` is the list of the `_uLength` elements it points to. The body
has no `return` statement after the copy loop. -/
def Buffer.PushRangePtr {s : Nat} (h : Heap) (b : Buffer) (_pData : List (Elem s)) :
    PushResult :=
  let _uLength := _pData.length
  let uOffset := b.m_uLength
  let uLength := (b.m_uLength + _uLength % UINT32_MOD) % UINT32_MOD
  match realloc h b.m_pData uLength with
  | none =>
      { buf := { b with m_uLength := uLength, m_pData := none }, ret := Ret.threw,
        overrun := false }
  | some blk =>
      let m := storeRange uOffset _pData 0 { bytes := blk, overrun := false }
      { buf := { b with m_uLength := uLength, m_pData := some m.bytes },
        ret := Ret.noValue, overrun := m.overrun }

/-- A pointer into a block: the block (or null) and a byte offset. -/
structure Ptr where
  block : Option (List Byte)
  off : Nat

/-- The member `Buffer::Get(uint32_t _uOffset)` (lines 204-206): `m_pData + _uOffset`. -/
def Buffer.Get (b : Buffer) (_uOffset : Nat) : Ptr :=
  { block := b.m_pData, off := _uOffset % UINT32_MOD }

/-- Read `n` bytes through a pointer; `none` when the pointer is null or the bytes
do not all lie inside the block. -/
def Ptr.read (p : Ptr) (n : Nat) : Option (List Byte) :=
  match p.block with
  | none => none
  | some blk => if p.off + n ≤ blk.length then some ((blk.drop p.off).take n) else none

/-- The byte stored at offset `o` of the buffer, when there is one. -/
def Buffer.byteAt (b : Buffer) (o : Nat) : Option Byte :=
  match b.m_pData with
  | none => none
  | some blk => blk[o]?

/-- A sequence of bytes as a range of `char` elements. -/
def chars (d : List Byte) : List (Elem 1) := d.map fun c => ⟨[c], rfl⟩

/-- The bytes the reallocation of a push keeps in front of the pushed range: the first
`m_uLength` bytes of the new block. -/
def kept (h : Heap) (b : Buffer) : List Byte :=
  (List.range b.m_uLength).map fun i => ((b.m_pData.getD [])[i]?).getD (h.junk i)

/-- One later call of the iterator-pair `PushRange` with a byte sequence: the choices of
its reallocation and the bytes pushed. -/
structure PushCall where
  heap : Heap
  data : List Byte

/-- The buffer after the calls of `calls`, made one after the other. -/
def pushAll (b : Buffer) (calls : List PushCall) : Buffer :=
  calls.foldl (fun acc c => (acc.PushRange c.heap (chars c.data)).buf) b

/-- The number of bytes the calls of `calls` push altogether. -/
def totalBytes (calls : List PushCall) : Nat :=
  (calls.map fun c => c.data.length).sum

/-! ### Concrete states used as examples -/

/-- A reallocation that succeeds and fills new bytes with zero. -/
def exHeapOk : Heap := { ok := true, junk := fun _ => 0 }

/-- A reallocation that fails. -/
def exHeapFail : Heap := { ok := false, junk := fun _ => 0 }

/-- A buffer holding the three bytes 1, 2, 3. -/
def exBuf3 : Buffer := { m_uLength := 3, m_pData := some [1, 2, 3] }

/-- A buffer holding `2 ^ 32 - 1` bytes, the largest length the field can hold. -/
def exBufFull : Buffer :=
  { m_uLength := 4294967295, m_pData := some (List.replicate 4294967295 7) }

/-- A first value of a four-byte element type. -/
def exElemA : Elem 4 := ⟨[1, 2, 3, 4], rfl⟩

/-- A second value of a four-byte element type. -/
def exElemB : Elem 4 := ⟨[5, 6, 7, 8], rfl⟩

end das2

/-! ## The vertex key of the OBJ converter -/

namespace TRS

/-- The type `TRS::Vector2<T>` (trs/Vector.h): two components. -/
structure Vector2 (F : Type) where
  first : F
  second : F

/-- The type `TRS::Vector3<T>` (trs/Vector.h): three components. -/
structure Vector3 (F : Type) where
  first : F
  second : F
  third : F

/-- The comparison operators `==` of the TRS vector types. The header trs/Vector.h
belongs to a separate library, so the operators are taken as given. -/
structure VectorOps (F : Type) where
  eq3 : Vector3 F → Vector3 F → Bool
  eq2 : Vector2 F → Vector2 F → Bool

end TRS

namespace das2.obj

/-- The struct `UnifiedVertex` (DasConverter.h, lines 27-35) over a component type `F`
standing for `float`. -/
structure UnifiedVertex (F : Type) where
  positionVertex : TRS.Vector3 F
  textureVertex : TRS.Vector2 F
  normalVertex : TRS.Vector3 F

/-- The member `UnifiedVertex::operator==` (lines 32-34). -/
def UnifiedVertex.opEq {F : Type} (ops : TRS.VectorOps F) (a _vt : UnifiedVertex F) : Bool :=
  ops.eq3 a.positionVertex _vt.positionVertex && ops.eq2 a.textureVertex _vt.textureVertex &&
    ops.eq3 a.normalVertex _vt.normalVertex

/-- Componentwise comparison of vectors over the integers, used for examples. -/
def exOps : TRS.VectorOps Int :=
  { eq3 := fun a b => a.first == b.first && a.second == b.second && a.third == b.third,
    eq2 := fun a b => a.first == b.first && a.second == b.second }

/-- An example vertex. -/
def exVertexA : UnifiedVertex Int :=
  { positionVertex := ⟨1, 2, 3⟩, textureVertex := ⟨0, 0⟩, normalVertex := ⟨0, 0, 1⟩ }

/-- The example vertex with another texture coordinate. -/
def exVertexB : UnifiedVertex Int :=
  { positionVertex := ⟨1, 2, 3⟩, textureVertex := ⟨0, 1⟩, normalVertex := ⟨0, 0, 1⟩ }

end das2.obj

/-! ## The hash of the vertex key -/

namespace TRS

/-- Modelled from the spec: the range `[Begin(), End())` of a `TRS::Vector3` (the headers
trs/Vector.h and trs/Iterators.h belong to a separate library): its three components in
the order of their declaration. -/
def Vector3.range {F : Type} (v : Vector3 F) : List F := [v.first, v.second, v.third]

/-- Modelled from the spec: the range `[Begin(), End())` of a `TRS::Vector2`: its two
components in the order of their declaration. -/
def Vector2.range {F : Type} (v : Vector2 F) : List F := [v.first, v.second]

end TRS

namespace das2.obj

/-- The modulus of `size_t` arithmetic, for a `size_t` of `w` bits. -/
def SIZE_MOD (w : Nat) : Nat := 2 ^ w

/-- The statement `seed ^= hasher(x) + 0x9e3779b9 + (seed << 6) + (seed >> 2);` of both
hash functions (DasConverter.h, lines 45-47, 61, 63, 65), computed in `size_t`. The
function `hasher` is `std::hash<float>`. Reducing the whole sum once is the same as
reducing after every addition. -/
def combine {F : Type} (w : Nat) (hasher : F → Nat) (seed : Nat) (x : F) : Nat :=
  seed ^^^ ((hasher x + 0x9e3779b9 + (seed <<< 6) % SIZE_MOD w + (seed >>> 2)) % SIZE_MOD w)

/-- The specialisation `std::hash<TRS::Vector3<float>>` (lines 40-51). -/
def hashVector3 {F : Type} (w : Nat) (hasher : F → Nat) (_vec : TRS.Vector3 F) : Nat :=
  let seed := 0
  let seed := combine w hasher seed _vec.first
  let seed := combine w hasher seed _vec.second
  let seed := combine w hasher seed _vec.third
  seed

/-- The specialisation `std::hash<das2::obj::UnifiedVertex>` (lines 53-69): three loops,
over the position, the normal and the texture vertex. -/
def hashUnifiedVertex {F : Type} (w : Nat) (hasher : F → Nat) (_vt : UnifiedVertex F) : Nat :=
  let seed := 0
  let seed := _vt.positionVertex.range.foldl (combine w hasher) seed
  let seed := _vt.normalVertex.range.foldl (combine w hasher) seed
  let seed := _vt.textureVertex.range.foldl (combine w hasher) seed
  seed

/-- The eight components of a vertex in the order the specification fixes: position
x, y, z, then normal x, y, z, then uv u, v. -/
def UnifiedVertex.components {F : Type} (v : UnifiedVertex F) : List F :=
  [v.positionVertex.first, v.positionVertex.second, v.positionVertex.third,
   v.normalVertex.first, v.normalVertex.second, v.normalVertex.third,
   v.textureVertex.first, v.textureVertex.second]

/-- The combine step in the words of the specification, with the shifts written as
arithmetic modulo `2 ^ w`: `seed XOR (h(x) + 0x9e3779b9 + (seed << 6) + (seed >> 2))`. -/
def specStep {F : Type} (w : Nat) (h : F → Nat) (seed : Nat) (x : F) : Nat :=
  seed ^^^ ((h x + 2654435769 + seed * 64 + seed / 4) % 2 ^ w)

/-- The hash in the words of the specification: the sequential combine of a list of
components, starting from seed 0. -/
def specCombine {F : Type} (w : Nat) (h : F → Nat) (xs : List F) : Nat :=
  xs.foldl (specStep w h) 0

/-- The agreement of `std::hash<float>` with the comparison of the TRS vectors: vectors
that compare equal have components with equal hash values. It holds when the vectors
compare componentwise with `==` of `float` and `std::hash<float>` gives equal floats
equal values. -/
def HashCompatible {F : Type} (ops : TRS.VectorOps F) (hasher : F → Nat) : Prop :=
  (∀ u v : TRS.Vector3 F, ops.eq3 u v = true → u.range.map hasher = v.range.map hasher) ∧
  (∀ u v : TRS.Vector2 F, ops.eq2 u v = true → u.range.map hasher = v.range.map hasher)

/-- A stand-in for `std::hash<float>` on the integers, used for examples. -/
def exHasher (x : Int) : Nat := x.natAbs + 7

/-- A comparison of integer vectors that, like `==` on floats with the two zeros, holds
between values that are not identical: components compare equal when their absolute
values agree. -/
def exAbsOps : TRS.VectorOps Int :=
  { eq3 := fun a b => a.first.natAbs == b.first.natAbs && a.second.natAbs == b.second.natAbs &&
      a.third.natAbs == b.third.natAbs,
    eq2 := fun a b => a.first.natAbs == b.first.natAbs && a.second.natAbs == b.second.natAbs }

/-- The example vertex with the sign of one position component changed. -/
def exVertexC : UnifiedVertex Int :=
  { positionVertex := ⟨-1, 2, 3⟩, textureVertex := ⟨0, 0⟩, normalVertex := ⟨0, 0, 1⟩ }

end das2.obj

/-! ## The records of DasStructures.h -/

namespace TRS

/-- The type `TRS::Vector4<T>` (trs/Vector.h): four components. -/
structure Vector4 (F : Type) where
  first : F
  second : F
  third : F
  fourth : F

end TRS

namespace das2

/-- The private fields of `class BinString` with their default member values
(DasStructures.h, lines 29-31): length `0`, hash `0`, data pointer `nullptr`. The data
block, when there is one, holds the characters and a terminating zero. -/
structure BinString where
  m_uLength : Nat := 0
  m_hshString : Nat := 0
  m_pData : Option (List Byte) := none

/-- The member `BinString::CString` (lines 96-98). -/
def BinString.CString (s : BinString) : Option (List Byte) := s.m_pData

/-- The member `BinString::Length` (lines 100-102). -/
def BinString.Length (s : BinString) : Nat := s.m_uLength

/-- The member `BinString::Hash` (lines 104-106). -/
def BinString.Hash (s : BinString) : Nat := s.m_hshString

/-- The expression `new char[n]{}`: a block of `n` zero bytes. -/
def newChars (n : Nat) : List Byte := List.replicate n 0

/-- The call `std::memcpy(dst, src, n)`: the first `n` bytes of the block `dst` become the
first `n` bytes of the block `src`. Both blocks hold at least `n` bytes. -/
def memcpy (dst src : List Byte) (n : Nat) : List Byte := src.take n ++ dst.drop n

/-- The characters a `const char*` denotes: the bytes before the first zero byte; `none`
for the null pointer. -/
def cstring (p : Option (List Byte)) : Option (List Byte) :=
  p.map fun blk => blk.takeWhile fun c => c != 0

/-- The copy constructor `BinString(const BinString&)` (lines 57-65). The result is
`none` when `new` throws; `allocOk` says whether the allocation succeeds. -/
def BinString.copy (allocOk : Bool) (_str : BinString) : Option BinString :=
  let m_uLength := _str.m_uLength
  let m_hshString := _str.m_hshString
  if m_uLength ≠ 0 then
    if allocOk then
      some { m_uLength := m_uLength, m_hshString := m_hshString,
             m_pData := some (memcpy (newChars (m_uLength + 1)) (_str.m_pData.getD []) m_uLength) }
    else none
  else
    some { m_uLength := m_uLength, m_hshString := m_hshString, m_pData := none }

/-- The copy assignment `BinString::operator=(const BinString&)` (lines 77-86), applied
to the object `self` with an argument `_other` that is another object (for the same
object see `assignSelf`). The result is
`none` when `new` throws; `allocOk` says whether the allocation succeeds. -/
def BinString.assign (allocOk : Bool) (self _other : BinString) : Option BinString :=
  let m_uLength := _other.m_uLength
  let m_hshString := _other.m_hshString
  if m_uLength ≠ 0 then
    if allocOk then
      some { m_uLength := m_uLength, m_hshString := m_hshString,
             m_pData := some (memcpy (newChars (m_uLength + 1)) (_other.m_pData.getD []) m_uLength) }
    else none
  else
    some { m_uLength := m_uLength, m_hshString := m_hshString, m_pData := self.m_pData }

/-- The copy assignment `BinString::operator=(const BinString&)` (lines 77-86) at
self-assignment, where `_other` is the object itself: length and hash are assigned to
themselves, and for a string that is not empty `m_pData` is replaced by a fresh zeroed
block before `_other.m_pData`, now that same block, is copied onto it. -/
def BinString.assignSelf (allocOk : Bool) (self : BinString) : Option BinString :=
  let m_uLength := self.m_uLength
  let m_hshString := self.m_hshString
  if m_uLength ≠ 0 then
    if allocOk then
      let fresh := newChars (m_uLength + 1)
      some { m_uLength := m_uLength, m_hshString := m_hshString,
             m_pData := some (memcpy fresh fresh m_uLength) }
    else none
  else
    some { m_uLength := m_uLength, m_hshString := m_hshString, m_pData := self.m_pData }

/-- The string `abc` as `BinString("abc")` holds it: three characters, a terminating
zero, and a number standing for its `RUNTIME_CRC` hash. -/
def exStrAbc : BinString :=
  { m_uLength := 3, m_hshString := 891568578, m_pData := some [97, 98, 99, 0] }

/-- The string `xy`. -/
def exStrXy : BinString :=
  { m_uLength := 2, m_hshString := 1234567, m_pData := some [120, 121, 0] }

/-- The empty string as `BinString()` constructs it. -/
def exStrEmpty : BinString := {}

/-- The code of a `StructureIdentifier` enumerator (lines 126-138), a `char`. -/
def StructureIdentifier.code : StructureIdentifier → Nat
  | Unknown => 0x00
  | Buffer => 0x01
  | Mesh => 0x02
  | MorphTarget => 0x03
  | MeshGroup => 0x04
  | Node => 0x05
  | Scene => 0x06
  | SkeletonJoint => 0x07
  | Skeleton => 0x08
  | Animation => 0x09
  | AnimationChannel => 0x0a
  | MaterialPhong => 0x0b
  | MaterialPbr => 0x0c

/-- The enumeration `MaterialType` (lines 141-145). -/
inductive MaterialType
  | Unknown
  | Phong
  | Pbr
  deriving DecidableEq

/-- The enumeration `AnimationTarget` (lines 147-153). -/
inductive AnimationTarget
  | Unknown
  | Weights
  | Translation
  | Rotation
  | Scale
  deriving DecidableEq

/-- The enumeration `InterpolationType` (lines 155-160). -/
inductive InterpolationType
  | Unknown
  | Linear
  | Step
  | CubicSpline
  deriving DecidableEq

/-- The conversion `static_cast<uint32_t>(i)` of an integer. -/
def castU32 (i : Int) : Nat := (i % (UINT32_MOD : Int)).toNat

/-- The sentinel the specification names: the largest unsigned 32-bit value. -/
def SENTINEL : Nat := 0xFFFFFFFF

/-- The contents of a `std::array<uint32_t, 8>` member that has no initializer, after
construction. The values are not fixed by the constructor: `indet a k` stands for what
slot `k` of array number `a` happens to hold. -/
def uninitArray (indet : Nat → Nat → Nat) (a : Nat) : List Nat :=
  (List.range 8).map fun k => indet a k % UINT32_MOD

/-- The fields of `class MorphTarget` (lines 257-271) with the default member values the
source gives. The two arrays have none. -/
structure MorphTarget where
  m_bStructure : StructureIdentifier := StructureIdentifier.Unknown
  uIndexBufferId : Nat := castU32 (-1)
  uIndexBufferOffset : Nat := 0
  uPositionVertexBufferId : Nat := castU32 (-1)
  uPositionVertexBufferOffset : Nat := 0
  uSurfaceNormalBufferId : Nat := castU32 (-1)
  uSurfaceNormalBufferOffset : Nat := 0
  arrUVBufferIds : List Nat
  arrUVBufferOffsets : List Nat
  uColorMultiplierId : Nat := castU32 (-1)
  uColorMultiplierOffset : Nat := 0

/-- The fields of `class Mesh` (lines 285-308) with the default member values the source
gives. The six arrays have none. -/
structure Mesh where
  m_bStructure : StructureIdentifier := StructureIdentifier.Unknown
  uIndexBufferId : Nat := castU32 (-1)
  uIndexBufferOffset : Nat := 0
  uDrawCount : Nat := 0
  uPositionVertexBufferId : Nat := castU32 (-1)
  uPositionVertexBufferOffset : Nat := 0
  uSurfaceNormalBufferId : Nat := castU32 (-1)
  uSurfaceNormalBufferOffset : Nat := 0
  arrUVBufferIds : List Nat
  arrUVBufferOffsets : List Nat
  uColorMultiplierId : Nat := castU32 (-1)
  uColorMultiplierOffset : Nat := 0
  arrSkeletalJointIndexBufferIds : List Nat
  arrSkeletalJointIndexBufferOffsets : List Nat
  arrSkeletalJointWeightBufferIds : List Nat
  arrSkeletalJointWeightBufferOffsets : List Nat
  bMaterialType : MaterialType := MaterialType.Unknown
  uMaterialId : Nat := castU32 (-1)
  morphTargets : List MorphTarget := []
  multipleLods : List Mesh

/-- The defaulted constructor `MorphTarget() = default` (line 274): every member with a
default member value gets it, the arrays get whatever `indet` says. -/
def MorphTarget.construct (indet : Nat → Nat → Nat) : MorphTarget :=
  { arrUVBufferIds := uninitArray indet 0, arrUVBufferOffsets := uninitArray indet 1 }

/-- The defaulted constructor `Mesh() = default` (line 311): every member with a default
member value gets it, the arrays get whatever `indet` says, the vectors are empty. -/
def Mesh.construct (indet : Nat → Nat → Nat) : Mesh :=
  { arrUVBufferIds := uninitArray indet 0, arrUVBufferOffsets := uninitArray indet 1,
    arrSkeletalJointIndexBufferIds := uninitArray indet 2,
    arrSkeletalJointIndexBufferOffsets := uninitArray indet 3,
    arrSkeletalJointWeightBufferIds := uninitArray indet 4,
    arrSkeletalJointWeightBufferOffsets := uninitArray indet 5, multipleLods := [] }

/-- Value-initialisation (`Mesh()`, `Mesh{}`): the object is zeroed before the defaulted
constructor runs, so the arrays hold zeros. -/
def valueInit : Nat → Nat → Nat := fun _ _ => 0

/-- The alternatives of `AnimationChannel::_Variant` (line 465), over a type `F` for
`float` and a type `Q` for `TRS::Quaternion`. -/
inductive Variant (F Q : Type)
  | floats (v : List F)
  | vector3 (v : TRS.Vector3 F)
  | quaternion (v : Q)
  | scalar (v : F)

/-- The fields of `class MeshGroup` (lines 324-330). -/
structure MeshGroup where
  m_bStructure : StructureIdentifier := StructureIdentifier.Unknown
  szName : BinString
  meshes : List Nat

/-- The fields of `class Node` (lines 345-358), over types `F`, `M4` and `Q` for `float`,
`TRS::Matrix4<float>` and `TRS::Quaternion`. The pointer `pChildren` is null or an
array. -/
structure Node (F M4 Q : Type) where
  m_bStructure : StructureIdentifier := StructureIdentifier.Unknown
  szName : BinString
  uChildrenCount : Nat
  pChildren : Option (List Nat)
  uMeshGroupId : Nat
  uSkeletonId : Nat
  mCustomTransform : M4
  qRotation : Q
  vTranslation : TRS.Vector3 F
  fScale : F

/-- The fields of `class Scene` (lines 373-379). -/
structure Scene where
  m_bStructure : StructureIdentifier := StructureIdentifier.Unknown
  szName : BinString
  rootNodes : List Nat

/-- The fields of `class SkeletonJoint` (lines 394-404). -/
structure SkeletonJoint (F M4 Q : Type) where
  m_bStructure : StructureIdentifier := StructureIdentifier.Unknown
  szName : BinString
  children : List Nat
  mInverseBindPos : M4
  qRotation : Q
  vTranslation : TRS.Vector3 F
  fScale : F

/-- The fields of `class Skeleton` (lines 419-426). -/
structure Skeleton where
  m_bStructure : StructureIdentifier := StructureIdentifier.Unknown
  szName : BinString
  uParent : Nat
  joints : List Nat

/-- The fields of `class Animation` (lines 441-447). -/
structure Animation where
  m_bStructure : StructureIdentifier := StructureIdentifier.Unknown
  szName : BinString
  animationChannels : List Nat

/-- The fields of `class AnimationChannel` (lines 462-476). An element of `tangents` is
an array of three variants. -/
structure AnimationChannel (F Q : Type) where
  m_bStructure : StructureIdentifier := StructureIdentifier.Unknown
  uNodePropertyId : Nat
  uJointPropertyId : Nat
  bAnimationTarget : AnimationTarget
  bInterpolationType : InterpolationType
  uKeyframeCount : Nat
  uWeightCount : Nat
  keyframes : List F
  tangents : List (List (Variant F Q))
  targetValues : List (Variant F Q)

/-- The fields of `class MaterialPhong` (lines 491-502). -/
structure MaterialPhong (F : Type) where
  m_bStructure : StructureIdentifier := StructureIdentifier.Unknown
  szName : BinString
  vDiffuse : TRS.Vector4 F
  vSpecular : TRS.Vector4 F
  vEmission : TRS.Vector4 F
  szDiffuseMapUri : BinString
  szSpecularMapUri : BinString
  szEmissionMapUri : BinString

/-- The fields of `class MaterialPbr` (lines 517-532). -/
structure MaterialPbr (F : Type) where
  m_bStructure : StructureIdentifier := StructureIdentifier.Unknown
  szName : BinString
  vAlbedoFactor : TRS.Vector4 F
  vEmissiveFactor : TRS.Vector4 F
  fRoughness : F
  fMetallic : F
  fAmbientOcclusion : F
  szAlbedoMapUri : BinString
  szEmissionMapUri : BinString
  szRoughnessMapUri : BinString
  szMetallicMapUri : BinString
  szAmbientOcclusionMapUri : BinString

/-- The member `Buffer::Initialize` (lines 200-202). -/
def Buffer.Initialize (r : Buffer) : Buffer :=
  { r with m_bStructure := StructureIdentifier.Buffer }

/-- The member `MorphTarget::Initialize` (lines 277-279). -/
def MorphTarget.Initialize (r : MorphTarget) : MorphTarget :=
  { r with m_bStructure := StructureIdentifier.MorphTarget }

/-- The member `Mesh::Initialize` (lines 316-318). -/
def Mesh.Initialize (r : Mesh) : Mesh :=
  { r with m_bStructure := StructureIdentifier.Mesh }

/-- The member `MeshGroup::Initialize` (lines 337-339). -/
def MeshGroup.Initialize (r : MeshGroup) : MeshGroup :=
  { r with m_bStructure := StructureIdentifier.MeshGroup }

/-- The member `Node::Initialize` (lines 365-367). -/
def Node.Initialize {F M4 Q : Type} (r : Node F M4 Q) : Node F M4 Q :=
  { r with m_bStructure := StructureIdentifier.Node }

/-- The member `Scene::Initialize` (lines 386-388). -/
def Scene.Initialize (r : Scene) : Scene :=
  { r with m_bStructure := StructureIdentifier.Scene }

/-- The member `SkeletonJoint::Initialize` (lines 411-413). -/
def SkeletonJoint.Initialize {F M4 Q : Type} (r : SkeletonJoint F M4 Q) : SkeletonJoint F M4 Q :=
  { r with m_bStructure := StructureIdentifier.SkeletonJoint }

/-- The member `Skeleton::Initialize` (lines 433-435). -/
def Skeleton.Initialize (r : Skeleton) : Skeleton :=
  { r with m_bStructure := StructureIdentifier.Skeleton }

/-- The member `Animation::Initialize` (lines 454-456). -/
def Animation.Initialize (r : Animation) : Animation :=
  { r with m_bStructure := StructureIdentifier.Animation }

/-- The member `AnimationChannel::Initialize` (lines 483-485). -/
def AnimationChannel.Initialize {F Q : Type} (r : AnimationChannel F Q) : AnimationChannel F Q :=
  { r with m_bStructure := StructureIdentifier.AnimationChannel }

/-- The member `MaterialPhong::Initialize` (lines 509-511). -/
def MaterialPhong.Initialize {F : Type} (r : MaterialPhong F) : MaterialPhong F :=
  { r with m_bStructure := StructureIdentifier.MaterialPhong }

/-- The member `MaterialPbr::Initialize` (lines 539-541). -/
def MaterialPbr.Initialize {F : Type} (r : MaterialPbr F) : MaterialPbr F :=
  { r with m_bStructure := StructureIdentifier.MaterialPbr }

/-- The twelve tags the `Initialize` members assign, in the order of the enumeration. -/
def initializedTags : List StructureIdentifier :=
  [StructureIdentifier.Buffer, StructureIdentifier.Mesh, StructureIdentifier.MorphTarget,
   StructureIdentifier.MeshGroup, StructureIdentifier.Node, StructureIdentifier.Scene,
   StructureIdentifier.SkeletonJoint, StructureIdentifier.Skeleton,
   StructureIdentifier.Animation, StructureIdentifier.AnimationChannel,
   StructureIdentifier.MaterialPhong, StructureIdentifier.MaterialPbr]

end das2

namespace das2

/-! ## Lemmas on blocks and reallocation -/

theorem realloc_ok (h : Heap) (p : Option (List Byte)) (size : Nat) (hk : h.ok = true) :
    realloc h p size =
      some ((List.range size).map fun i => ((p.getD [])[i]?).getD (h.junk i)) := by
  simp [realloc, hk]

theorem realloc_fail (h : Heap) (p : Option (List Byte)) (size : Nat) (hk : h.ok = false) :
    realloc h p size = none := by
  simp [realloc, hk]

theorem Block.storeByte_length (m : Block) (pos : Nat) (v : Byte) :
    (m.storeByte pos v).bytes.length = m.bytes.length := by
  unfold Block.storeByte
  split <;> simp

theorem Block.store_length (vs : List Byte) :
    ∀ (m : Block) (pos : Nat), (m.store pos vs).bytes.length = m.bytes.length := by
  induction vs with
  | nil => intro m pos; rfl
  | cons v vs ih =>
      intro m pos
      simp only [Block.store]
      rw [ih, Block.storeByte_length]

theorem Block.storeByte_frame (m : Block) (pos : Nat) (v : Byte) (o : Nat) (ho : o < pos) :
    (m.storeByte pos v).bytes[o]? = m.bytes[o]? := by
  unfold Block.storeByte
  split
  · simp [List.getElem?_set_ne (Nat.ne_of_gt ho)]
  · rfl

theorem Block.store_frame (vs : List Byte) :
    ∀ (m : Block) (pos o : Nat), o < pos → (m.store pos vs).bytes[o]? = m.bytes[o]? := by
  induction vs with
  | nil => intro m pos o _; rfl
  | cons v vs ih =>
      intro m pos o ho
      simp only [Block.store]
      rw [ih _ _ _ (Nat.lt_succ_of_lt ho), Block.storeByte_frame _ _ _ _ ho]

theorem storeRange_frame {s : Nat} (uOffset : Nat) (xs : List (Elem s)) :
    ∀ (i : Nat) (m : Block) (o : Nat), o < uOffset →
      (storeRange uOffset xs i m).bytes[o]? = m.bytes[o]? := by
  induction xs with
  | nil => intro i m o _; rfl
  | cons x rest ih =>
      intro i m o ho
      simp only [storeRange]
      rw [ih _ _ _ ho, Block.store_frame _ _ _ _ (Nat.lt_of_lt_of_le ho (Nat.le_add_right _ _))]

theorem storeRange_length {s : Nat} (uOffset : Nat) (xs : List (Elem s)) :
    ∀ (i : Nat) (m : Block), (storeRange uOffset xs i m).bytes.length = m.bytes.length := by
  induction xs with
  | nil => intro i m; rfl
  | cons x rest ih =>
      intro i m
      simp only [storeRange]
      rw [ih, Block.store_length]

theorem Block.store_exact (vs : List Byte) :
    ∀ (pre mid post : List Byte) (f : Bool), mid.length = vs.length →
      Block.store ⟨pre ++ mid ++ post, f⟩ pre.length vs = ⟨pre ++ vs ++ post, f⟩ := by
  induction vs with
  | nil =>
      intro pre mid post f hm
      have : mid = [] := List.eq_nil_of_length_eq_zero hm
      subst this
      rfl
  | cons v vs ih =>
      intro pre mid post f hm
      cases mid with
      | nil => simp at hm
      | cons c mid =>
          have hlen : mid.length = vs.length := by simpa using hm
          have hstep : Block.storeByte ⟨pre ++ c :: mid ++ post, f⟩ pre.length v =
              ⟨(pre ++ [v]) ++ mid ++ post, f⟩ := by
            simp [Block.storeByte]
          simp only [Block.store]
          rw [hstep]
          have := ih (pre ++ [v]) mid post f hlen
          simpa using this

theorem storeRange_chars (uOffset : Nat) (d : List Byte) :
    ∀ (i : Nat) (m : Block), storeRange uOffset (chars d) i m = m.store (uOffset + i) d := by
  induction d with
  | nil => intro i m; rfl
  | cons c d ih =>
      intro i m
      simp only [chars, List.map_cons, storeRange, Block.store, Nat.mul_one]
      exact ih (i + 1) _

theorem map_range_add {α : Type} (f : Nat → α) (a n : Nat) :
    (List.range (a + n)).map f = (List.range a).map f ++ (List.range n).map fun k => f (a + k) := by
  rw [List.range_add, List.map_append, List.map_map]
  rfl

theorem kept_eq_block (junk : Nat → Byte) (blk : List Byte) :
    ((List.range blk.length).map fun i => (blk[i]?).getD (junk i)) = blk := by
  apply List.ext_getElem
  · simp
  · intro i h1 h2
    simp [List.getElem?_eq_getElem h2]

theorem chars_length (d : List Byte) : (chars d).length = d.length := by
  simp [chars]

theorem kept_length (h : Heap) (b : Buffer) : (kept h b).length = b.m_uLength := by
  simp [kept]

theorem PushRange_size {s : Nat} (h : Heap) (b : Buffer) (xs : List (Elem s)) :
    (b.PushRange h xs).buf.Size = (b.Size + xs.length) % UINT32_MOD := by
  unfold Buffer.PushRange Buffer.Size
  dsimp only
  split <;> exact Nat.add_mod_mod _ _ _

theorem PushRangePtr_size {s : Nat} (h : Heap) (b : Buffer) (xs : List (Elem s)) :
    (b.PushRangePtr h xs).buf.Size = (b.Size + xs.length) % UINT32_MOD := by
  unfold Buffer.PushRangePtr Buffer.Size
  dsimp only
  split <;> exact Nat.add_mod_mod _ _ _

theorem wrap_eq_of_fits (a n : Nat) (hfit : a + n < UINT32_MOD) :
    (a + n % UINT32_MOD) % UINT32_MOD = a + n := by
  have hn : n % UINT32_MOD = n := Nat.mod_eq_of_lt (by omega)
  rw [hn, Nat.mod_eq_of_lt hfit]

theorem PushRange_chars_ok (h : Heap) (b : Buffer) (d : List Byte) (hk : h.ok = true)
    (hfit : b.m_uLength + d.length < UINT32_MOD) :
    b.PushRange h (chars d) =
      { buf := { b with m_uLength := b.m_uLength + d.length, m_pData := some (kept h b ++ d) },
        ret := Ret.returned b.m_uLength, overrun := false } := by
  unfold Buffer.PushRange
  simp only [chars_length]
  rw [wrap_eq_of_fits _ _ hfit, realloc_ok _ _ _ hk, map_range_add]
  simp only [storeRange_chars, Nat.add_zero]
  have hst := Block.store_exact d (kept h b)
    ((List.range d.length).map fun k => ((b.m_pData.getD [])[b.m_uLength + k]?).getD
      (h.junk (b.m_uLength + k))) [] false (by simp)
  rw [kept_length] at hst
  simp only [List.append_nil] at hst
  unfold kept at hst ⊢
  rw [hst]

theorem PushRange_ret_cases {s : Nat} (h : Heap) (b : Buffer) (xs : List (Elem s)) :
    (b.PushRange h xs).ret = if h.ok then Ret.returned b.m_uLength else Ret.threw := by
  unfold Buffer.PushRange realloc
  cases hk : h.ok <;> simp

theorem realloc_block_frame {s : Nat} (h : Heap) (b : Buffer) (xs : List (Elem s)) (n o : Nat)
    (v : Byte) (ho : o < b.m_uLength) (hn : b.m_uLength ≤ n) (hv : b.byteAt o = some v) :
    (storeRange b.m_uLength xs 0
      { bytes := (List.range n).map fun i => ((b.m_pData.getD [])[i]?).getD (h.junk i),
        overrun := false }).bytes[o]? = some v := by
  rw [storeRange_frame _ _ _ _ _ ho]
  have hlt : o < n := by omega
  have hold : (b.m_pData.getD [])[o]? = some v := by
    unfold Buffer.byteAt at hv
    cases hp : b.m_pData with
    | none => rw [hp] at hv; simp at hv
    | some blk => rw [hp] at hv; simpa using hv
  simp [hlt, hold]

theorem pushAll_extends (calls : List PushCall) :
    ∀ (b : Buffer) (blk : List Byte), b.m_pData = some blk → blk.length = b.m_uLength →
      (∀ c ∈ calls, c.heap.ok = true) → b.m_uLength + totalBytes calls < UINT32_MOD →
      ∃ suffix, (pushAll b calls).m_pData = some (blk ++ suffix) := by
  induction calls with
  | nil =>
      intro b blk hb _ _ _
      exact ⟨[], by simpa [pushAll] using hb⟩
  | cons c calls ih =>
      intro b blk hb hlen hok hfit
      have hc : c.heap.ok = true := hok c (List.mem_cons_self _ _)
      have hsum : totalBytes (c :: calls) = c.data.length + totalBytes calls := by
        simp [totalBytes]
      rw [hsum] at hfit
      have hfit1 : b.m_uLength + c.data.length < UINT32_MOD := by omega
      have hstep := PushRange_chars_ok c.heap b c.data hc hfit1
      have hkept : kept c.heap b = blk := by
        unfold kept
        rw [hb, ← hlen]
        exact kept_eq_block _ _
      obtain ⟨suffix, hs⟩ := ih (b.PushRange c.heap (chars c.data)).buf (blk ++ c.data)
        (by rw [hstep, hkept]) (by rw [hstep]; simp [hlen])
        (fun c2 hc2 => hok c2 (List.mem_cons_of_mem _ hc2)) (by rw [hstep]; simp; omega)
      refine ⟨c.data ++ suffix, ?_⟩
      have : pushAll b (c :: calls) = pushAll (b.PushRange c.heap (chars c.data)).buf calls := rfl
      rw [this, hs, List.append_assoc]

theorem exBufFull_fits :
    ({} : Buffer).m_uLength + (List.replicate 4294967295 (7 : Byte)).length < UINT32_MOD := by
  rw [List.length_replicate]
  decide

/-- The state `exBufFull` is the result of pushing `2 ^ 32 - 1` bytes onto a
default-constructed buffer. -/
theorem exBufFull_reachable :
    (({} : Buffer).PushRange exHeapOk (chars (List.replicate 4294967295 7))).buf = exBufFull := by
  have h1 := PushRange_chars_ok exHeapOk {} (List.replicate 4294967295 7) rfl exBufFull_fits
  have h2 : kept exHeapOk {} = [] := rfl
  have h3 : ({} : Buffer).m_uLength = 0 := rfl
  rw [h1, h2, h3, List.length_replicate, List.nil_append, Nat.zero_add]
  rfl

/-! ## Lemmas on calls that complete -/

theorem Block.storeByte_overrun (m : Block) (pos : Nat) (v : Byte) (hm : m.overrun = true) :
    (m.storeByte pos v).overrun = true := by
  unfold Block.storeByte
  split <;> simp [hm]

theorem Block.store_overrun (vs : List Byte) :
    ∀ (m : Block) (pos : Nat), m.overrun = true → (m.store pos vs).overrun = true := by
  induction vs with
  | nil => intro m pos hm; exact hm
  | cons v vs ih =>
      intro m pos hm
      simp only [Block.store]
      exact ih _ _ (Block.storeByte_overrun m pos v hm)

/-- When no store fell outside the block, the stored bytes end inside it. -/
theorem Block.store_in_bounds (vs : List Byte) :
    ∀ (m : Block) (pos : Nat), (m.store pos vs).overrun = false →
      vs = [] ∨ pos + vs.length ≤ m.bytes.length := by
  induction vs with
  | nil => intro m pos _; exact Or.inl rfl
  | cons v vs ih =>
      intro m pos hov
      right
      simp only [Block.store] at hov
      by_cases hpos : pos < m.bytes.length
      · rcases ih _ _ hov with hnil | hle
        · subst hnil
          simp only [List.length_cons, List.length_nil]
          omega
        · rw [Block.storeByte_length] at hle
          simp only [List.length_cons]
          omega
      · have hbad : (m.storeByte pos v).overrun = true := by
          unfold Block.storeByte
          rw [if_neg hpos]
        rw [Block.store_overrun vs _ _ hbad] at hov
        exact absurd hov (by decide)

/-- Both overloads leave the same buffer and the same record of stores. -/
theorem PushRangePtr_buf_eq {s : Nat} (h : Heap) (b : Buffer) (xs : List (Elem s)) :
    (b.PushRangePtr h xs).buf = (b.PushRange h xs).buf ∧
    (b.PushRangePtr h xs).overrun = (b.PushRange h xs).overrun := by
  unfold Buffer.PushRangePtr Buffer.PushRange
  dsimp only
  split <;> exact ⟨rfl, rfl⟩

theorem PushRangePtr_ret_cases {s : Nat} (h : Heap) (b : Buffer) (xs : List (Elem s)) :
    (b.PushRangePtr h xs).ret = if h.ok then Ret.noValue else Ret.threw := by
  unfold Buffer.PushRangePtr realloc
  cases hk : h.ok <;> simp

/-- A push of bytes that did not throw and stored nothing outside the block did not wrap
the 32-bit length. -/
theorem PushRange_chars_fits (h : Heap) (b : Buffer) (d : List Byte)
    (hb : b.m_uLength < UINT32_MOD) (hk : h.ok = true)
    (hov : (b.PushRange h (chars d)).overrun = false) :
    b.m_uLength + d.length < UINT32_MOD := by
  unfold Buffer.PushRange at hov
  simp only [chars_length, realloc_ok _ _ _ hk, storeRange_chars, Nat.add_zero] at hov
  rcases Block.store_in_bounds d _ _ hov with hnil | hle
  · subst hnil
    simpa using hb
  · simp only [List.length_map, List.length_range] at hle
    have hlt : (b.m_uLength + d.length % UINT32_MOD) % UINT32_MOD < UINT32_MOD :=
      Nat.mod_lt _ (by decide)
    omega

/-- A call that returned had a successful reallocation and returned the former length. -/
theorem PushRange_returned {s : Nat} (h : Heap) (b : Buffer) (xs : List (Elem s)) (a : Nat)
    (hret : (b.PushRange h xs).ret = Ret.returned a) : h.ok = true ∧ a = b.m_uLength := by
  rw [PushRange_ret_cases] at hret
  cases hk : h.ok with
  | false => rw [hk] at hret; simp at hret
  | true =>
      rw [hk] at hret
      simp only [if_true, Ret.returned.injEq] at hret
      exact ⟨rfl, hret.symm⟩

/-- The part of the read-back property that holds: if the push of a byte sequence `d`
returned offset `a`, every later push has a successful reallocation, and the total length
stays below `2 ^ 32`, then reading `d.length` bytes through `Get(a)` yields `d`. -/
theorem PushRange_read_back (h : Heap) (b : Buffer) (d : List Byte) (calls : List PushCall)
    (a : Nat) (hfit : b.Size + d.length + totalBytes calls < UINT32_MOD)
    (hoks : ∀ c ∈ calls, c.heap.ok = true)
    (hret : (b.PushRange h (chars d)).ret = Ret.returned a) :
    ((pushAll (b.PushRange h (chars d)).buf calls).Get a).read d.length = some d := by
  unfold Buffer.Size at hfit
  rw [PushRange_ret_cases] at hret
  cases hk : h.ok with
  | false => rw [hk] at hret; simp at hret
  | true =>
      rw [hk] at hret
      simp only [if_true, Ret.returned.injEq] at hret
      subst hret
      have hstep := PushRange_chars_ok h b d hk (by omega)
      obtain ⟨suffix, hs⟩ := pushAll_extends calls (b.PushRange h (chars d)).buf (kept h b ++ d)
        (by rw [hstep]) (by rw [hstep]; simp [kept_length]) hoks (by rw [hstep]; simp; omega)
      have hmod : b.m_uLength % UINT32_MOD = b.m_uLength := Nat.mod_eq_of_lt (by omega)
      unfold Buffer.Get Ptr.read
      simp only [hs, hmod]
      have hl : b.m_uLength = (kept h b).length := (kept_length h b).symm
      rw [if_pos (by simp [kept_length])]
      congr 1
      rw [List.append_assoc, hl, List.drop_left]
      simp

/-! ## The claims -/

/-- C1: the iterator-pair `PushRange` returns the value `Size()` had before the call:
it returns whenever the reallocation succeeds, and every value it returns is that one. -/
theorem PushRange_returns_prior_size {s : Nat} (h : Heap) (b : Buffer) (xs : List (Elem s)) :
    (h.ok = true → (b.PushRange h xs).ret = Ret.returned b.Size) ∧
    (∀ off, (b.PushRange h xs).ret = Ret.returned off → off = b.Size) := by
  unfold Buffer.PushRange realloc Buffer.Size
  cases hk : h.ok <;> simp

/-- Witness of C1: pushing two bytes onto the three-byte buffer returns offset 3. -/
theorem PushRange_returns_prior_size_witness :
    exHeapOk.ok = true ∧ (exBuf3.PushRange exHeapOk (chars [9, 8])).ret = Ret.returned 3 :=
  ⟨rfl, (PushRange_returns_prior_size exHeapOk exBuf3 (chars [9, 8])).1 rfl⟩

/-- C2 (counterexample): pushing one byte onto a buffer of `2 ^ 32 - 1` bytes leaves
`Size()` at 0, not at the previous size plus one. -/
theorem PushRange_size_wraps :
    (exBufFull.PushRange exHeapOk (chars [9])).buf.Size ≠ exBufFull.Size + [(9 : Byte)].length := by
  decide

/-- C2 (amended): after the iterator-pair `PushRange` of `n` bytes, `Size()` is the
previous size plus `n` reduced modulo `2 ^ 32`; it is the previous size plus `n`
whenever that sum fits the 32-bit length field. -/
theorem PushRange_size_mod (h : Heap) (b : Buffer) (d : List Byte) :
    (b.PushRange h (chars d)).buf.Size = (b.Size + d.length) % UINT32_MOD ∧
    (b.Size + d.length < UINT32_MOD → (b.PushRange h (chars d)).buf.Size = b.Size + d.length) := by
  have hs := PushRange_size h b (chars d)
  rw [chars_length] at hs
  exact ⟨hs, fun hfit => by rw [hs, Nat.mod_eq_of_lt hfit]⟩

/-- Witness of C2: pushing two bytes onto the three-byte buffer gives size 5. -/
theorem PushRange_size_mod_witness :
    exBuf3.Size + [(9 : Byte), 8].length < UINT32_MOD ∧
    (exBuf3.PushRange exHeapOk (chars [9, 8])).buf.Size = exBuf3.Size + [(9 : Byte), 8].length :=
  ⟨by decide, (PushRange_size_mod exHeapOk exBuf3 [9, 8]).2 (by decide)⟩

/-- C3 (counterexample): pushing one `char` element (element size 1) onto a buffer of
`2 ^ 32 - 1` bytes leaves `Size()` at 0, whether the reallocation fails or succeeds, so
`Size()` has not grown by the element count times the element size. -/
theorem PushRange_append_size_wraps :
    (exBufFull.PushRange exHeapFail (chars [9])).buf.Size ≠
      exBufFull.Size + (chars [9]).length * 1 ∧
    (exBufFull.PushRange exHeapOk (chars [9])).buf.Size ≠
      exBufFull.Size + (chars [9]).length * 1 := by
  decide

/-- C3 (amended): for `char` elements, the one element type the casts admit, and a length
that fits the 32-bit field, a push of `d.length` elements makes `Size()` grow by
`d.length` with either overload; when the reallocation succeeds the iterator-pair call
returns the former `Size()` with no store outside the block, both overloads leave the same
buffer, the pushed bytes are read back from the returned offset, so they lie between
that offset and the new `Size()`, and the next push returns the new `Size()`. -/
theorem PushRange_appends_chars (h h2 : Heap) (b : Buffer) (d d2 : List Byte)
    (hfit : b.Size + d.length < UINT32_MOD) :
    ((b.PushRange h (chars d)).buf.Size = b.Size + d.length ∧
      (b.PushRangePtr h (chars d)).buf.Size = b.Size + d.length) ∧
    (h.ok = true →
      (b.PushRange h (chars d)).Returns b.Size ∧
      (b.PushRangePtr h (chars d)).buf = (b.PushRange h (chars d)).buf ∧
      ((b.PushRange h (chars d)).buf.Get b.Size).read d.length = some d ∧
      (h2.ok = true →
        ((b.PushRange h (chars d)).buf.PushRange h2 (chars d2)).ret =
          Ret.returned (b.Size + d.length))) := by
  have hs := PushRange_size h b (chars d)
  have hsp := PushRangePtr_size h b (chars d)
  rw [chars_length, Nat.mod_eq_of_lt hfit] at hs hsp
  refine ⟨⟨hs, hsp⟩, fun hk => ?_⟩
  have hstep := PushRange_chars_ok h b d hk hfit
  have hret : (b.PushRange h (chars d)).ret = Ret.returned b.Size := by rw [hstep]; rfl
  refine ⟨⟨hret, by rw [hstep]⟩, (PushRangePtr_buf_eq h b (chars d)).1, ?_, fun hk2 => ?_⟩
  · exact PushRange_read_back h b d [] b.Size (by simpa [totalBytes] using hfit)
      (fun c hc => absurd hc (List.not_mem_nil c)) hret
  · rw [PushRange_ret_cases, hk2, if_pos rfl]
    exact congrArg Ret.returned hs

/-- Witness of C3: two `char` elements pushed onto the three-byte buffer make its size 5,
are read back at offset 3, and the next push returns 5. -/
theorem PushRange_appends_chars_witness :
    exBuf3.Size + [(9 : Byte), 8].length < UINT32_MOD ∧
    (exBuf3.PushRange exHeapOk (chars [9, 8])).buf.Size = exBuf3.Size + [(9 : Byte), 8].length ∧
    ((exBuf3.PushRange exHeapOk (chars [9, 8])).buf.Get exBuf3.Size).read
      [(9 : Byte), 8].length = some [9, 8] :=
  ⟨by decide,
    (PushRange_appends_chars exHeapOk exHeapOk exBuf3 [9, 8] [7] (by decide)).1.1,
    ((PushRange_appends_chars exHeapOk exHeapOk exBuf3 [9, 8] [7] (by decide)).2 rfl).2.2.1⟩

/-- C4 (the code at the failing input): the pointer overload, called with one byte on
the three-byte buffer, completes its copy loop and ends without returning a value. -/
theorem PushRangePtr_returns_no_value :
    (exBuf3.PushRangePtr exHeapOk (chars [9])).ret = Ret.noValue ∧
    (exBuf3.PushRangePtr exHeapOk (chars [9])).ret ≠ Ret.returned exBuf3.Size := by
  decide

/-- C5: for two consecutive pushes of byte sequences on a buffer whose length is a
32-bit value, if the first call returns offset `a1` and the second returns offset `a2`,
then `a2` is `a1` plus the length of the first sequence. -/
theorem PushRange_consecutive_offsets (h1 h2 : Heap) (b : Buffer) (d1 d2 : List Byte)
    (a1 a2 : Nat) (hb : b.Size < UINT32_MOD)
    (hr1 : (b.PushRange h1 (chars d1)).Returns a1)
    (hr2 : ((b.PushRange h1 (chars d1)).buf.PushRange h2 (chars d2)).Returns a2) :
    a2 = a1 + d1.length := by
  obtain ⟨hk1, ha1⟩ := PushRange_returned h1 b (chars d1) a1 hr1.1
  obtain ⟨_, ha2⟩ := PushRange_returned h2 _ (chars d2) a2 hr2.1
  have hfit : b.Size + d1.length < UINT32_MOD := PushRange_chars_fits h1 b d1 hb hk1 hr1.2
  have hs := PushRange_size h1 b (chars d1)
  rw [chars_length, Nat.mod_eq_of_lt hfit] at hs
  rw [ha2, ha1]
  exact hs

/-- Witness of C5: on the three-byte buffer, a push of two bytes returns 3 and a
following push of one byte returns 5. -/
theorem PushRange_consecutive_offsets_witness :
    (exBuf3.PushRange exHeapOk (chars [9, 8])).Returns 3 ∧
    ((exBuf3.PushRange exHeapOk (chars [9, 8])).buf.PushRange exHeapOk (chars [7])).Returns 5 ∧
    5 = 3 + [(9 : Byte), 8].length :=
  ⟨by decide, by decide,
    PushRange_consecutive_offsets exHeapOk exHeapOk exBuf3 [9, 8] [7] 3 5 (by decide)
      (by decide) (by decide)⟩

/-- C6: for a buffer whose length is a 32-bit value and a push of bytes with either
overload, if the push is successful (it does not throw and stores nothing outside the
block), every byte at an offset below the previous `Size()` is as it was. -/
theorem PushRange_keeps_earlier_bytes (h : Heap) (b : Buffer) (d : List Byte) (o : Nat)
    (v : Byte) (hb : b.Size < UINT32_MOD) (ho : o < b.Size) (hv : b.byteAt o = some v) :
    ((b.PushRange h (chars d)).Successful → (b.PushRange h (chars d)).buf.byteAt o = some v) ∧
    ((b.PushRangePtr h (chars d)).Successful →
      (b.PushRangePtr h (chars d)).buf.byteAt o = some v) := by
  unfold Buffer.Size at hb ho
  have hkeep : h.ok = true → (b.PushRange h (chars d)).overrun = false →
      (b.PushRange h (chars d)).buf.byteAt o = some v := by
    intro hk hov
    have hfit := PushRange_chars_fits h b d hb hk hov
    rw [← chars_length d] at hfit
    have hfr := realloc_block_frame h b (chars d) (b.m_uLength + (chars d).length) o v ho
      (by omega) hv
    unfold Buffer.PushRange
    simp only [wrap_eq_of_fits _ _ hfit, realloc_ok _ _ _ hk]
    exact hfr
  constructor
  · intro hsucc
    have hk : h.ok = true := by
      cases hk : h.ok with
      | true => rfl
      | false => exact absurd (by rw [PushRange_ret_cases, hk]; rfl) hsucc.1
    exact hkeep hk hsucc.2
  · intro hsucc
    have hk : h.ok = true := by
      cases hk : h.ok with
      | true => rfl
      | false => exact absurd (by rw [PushRangePtr_ret_cases, hk]; rfl) hsucc.1
    rw [(PushRangePtr_buf_eq h b (chars d)).1]
    exact hkeep hk (by rw [← (PushRangePtr_buf_eq h b (chars d)).2]; exact hsucc.2)

/-- Witness of C6: a successful push of one byte onto the three-byte buffer keeps the
byte 2 at offset 1. -/
theorem PushRange_keeps_earlier_bytes_witness :
    (exBuf3.PushRange exHeapOk (chars [9])).Successful ∧
    (exBuf3.PushRange exHeapOk (chars [9])).buf.byteAt 1 = some 2 ∧
    (exBuf3.PushRangePtr exHeapOk (chars [9])).buf.byteAt 1 = some 2 :=
  ⟨by decide,
    (PushRange_keeps_earlier_bytes exHeapOk exBuf3 [9] 1 2 (by decide) (by decide)
      (by decide)).1 (by decide),
    (PushRange_keeps_earlier_bytes exHeapOk exBuf3 [9] 1 2 (by decide) (by decide)
      (by decide)).2 (by decide)⟩

/-- C7 (the code at the failing input): two bytes pushed onto the three-byte buffer are
returned offset 3 and are read back there; after a later push whose reallocation fails,
which throws, the data pointer is null and reading at offset 3 yields nothing. -/
theorem PushRange_later_failure_loses_bytes :
    ((exBuf3.PushRange exHeapOk (chars [9, 8])).Returns 3 ∧
      ((exBuf3.PushRange exHeapOk (chars [9, 8])).buf.Get 3).read 2 = some [9, 8]) ∧
    ((exBuf3.PushRange exHeapOk (chars [9, 8])).buf.PushRange exHeapFail (chars [5])).ret =
      Ret.threw ∧
    (pushAll (exBuf3.PushRange exHeapOk (chars [9, 8])).buf [⟨exHeapFail, [5]⟩]).m_pData =
      none ∧
    ((pushAll (exBuf3.PushRange exHeapOk (chars [9, 8])).buf [⟨exHeapFail, [5]⟩]).Get 3).read
      2 = none := by
  decide

/-- C8 (the code at the failing input): when the reallocation fails during a push of one
byte onto the three-byte buffer, the call throws, `Size()` is 4 and the data pointer is
null, with either overload; before the call `Size()` was 3 and the bytes were 1, 2, 3. -/
theorem PushRange_failed_alloc_changes_buffer :
    (exBuf3.Size = 3 ∧ exBuf3.m_pData = some [1, 2, 3]) ∧
    ((exBuf3.PushRange exHeapFail (chars [9])).ret = Ret.threw ∧
      (exBuf3.PushRange exHeapFail (chars [9])).buf.Size = 4 ∧
      (exBuf3.PushRange exHeapFail (chars [9])).buf.m_pData = none) ∧
    ((exBuf3.PushRangePtr exHeapFail (chars [9])).ret = Ret.threw ∧
      (exBuf3.PushRangePtr exHeapFail (chars [9])).buf.Size = 4 ∧
      (exBuf3.PushRangePtr exHeapFail (chars [9])).buf.m_pData = none) := by
  decide

/-- C9 (counterexample): pushing one byte onto a buffer of `2 ^ 32 - 1` bytes makes
`Size()` smaller than before. -/
theorem PushRange_size_decreases :
    ¬ (exBufFull.Size ≤ (exBufFull.PushRange exHeapOk (chars [9])).buf.Size) := by
  decide

/-- C9 (amended): whenever the previous size plus the number of pushed elements fits the
32-bit length field, `Size()` after a push, with either overload, is at least `Size()`
before. -/
theorem PushRange_size_monotone {s : Nat} (h : Heap) (b : Buffer) (xs : List (Elem s))
    (hfit : b.Size + xs.length < UINT32_MOD) :
    b.Size ≤ (b.PushRange h xs).buf.Size ∧ b.Size ≤ (b.PushRangePtr h xs).buf.Size := by
  rw [PushRange_size, PushRangePtr_size, Nat.mod_eq_of_lt hfit]
  exact ⟨Nat.le_add_right _ _, Nat.le_add_right _ _⟩

/-- Witness of C9: pushing two four-byte elements onto the three-byte buffer does not
make it shorter. -/
theorem PushRange_size_monotone_witness :
    exBuf3.Size ≤ (exBuf3.PushRange exHeapOk [exElemA, exElemB]).buf.Size ∧
    exBuf3.Size ≤ (exBuf3.PushRangePtr exHeapOk [exElemA, exElemB]).buf.Size :=
  PushRange_size_monotone exHeapOk exBuf3 [exElemA, exElemB] (by decide)

end das2

namespace das2.obj

/-- C10: `UnifiedVertex::operator==` returns true exactly when the positions, the
texture coordinates and the normals all compare equal; if any one of the three
compares unequal, the vertices compare unequal. -/
theorem UnifiedVertex_opEq_iff {F : Type} (ops : TRS.VectorOps F) (a b : UnifiedVertex F) :
    (a.opEq ops b = true ↔
      (ops.eq3 a.positionVertex b.positionVertex = true ∧
        ops.eq2 a.textureVertex b.textureVertex = true ∧
        ops.eq3 a.normalVertex b.normalVertex = true)) ∧
    ((ops.eq3 a.positionVertex b.positionVertex = false ∨
        ops.eq2 a.textureVertex b.textureVertex = false ∨
        ops.eq3 a.normalVertex b.normalVertex = false) → a.opEq ops b = false) := by
  unfold UnifiedVertex.opEq
  constructor
  · simp [Bool.and_eq_true, and_assoc]
  · rintro (h | h | h) <;> simp [h]

/-- Witness of C10: two vertices with the same position and normal and different
texture coordinates compare unequal. -/
theorem UnifiedVertex_opEq_iff_witness :
    exOps.eq2 exVertexA.textureVertex exVertexB.textureVertex = false ∧
    exVertexA.opEq exOps exVertexB = false :=
  ⟨by decide, (UnifiedVertex_opEq_iff exOps exVertexA exVertexB).2 (Or.inr (Or.inl (by decide)))⟩

end das2.obj

namespace das2.obj

/-! ## Lemmas on the hash -/

theorem combine_congr {F : Type} (w : Nat) (hasher : F → Nat) (seed : Nat) (x y : F)
    (hxy : hasher x = hasher y) : combine w hasher seed x = combine w hasher seed y := by
  unfold combine
  rw [hxy]

theorem foldl_combine_congr {F : Type} (w : Nat) (hasher : F → Nat) (xs : List F) :
    ∀ (ys : List F) (seed : Nat), xs.map hasher = ys.map hasher →
      xs.foldl (combine w hasher) seed = ys.foldl (combine w hasher) seed := by
  induction xs with
  | nil =>
      intro ys seed hmap
      cases ys with
      | nil => rfl
      | cons y ys => simp at hmap
  | cons x xs ih =>
      intro ys seed hmap
      cases ys with
      | nil => simp at hmap
      | cons y ys =>
          simp only [List.map_cons, List.cons.injEq] at hmap
          simp only [List.foldl_cons]
          rw [combine_congr w hasher seed x y hmap.1]
          exact ih ys _ hmap.2

theorem hashUnifiedVertex_eq_foldl {F : Type} (w : Nat) (hasher : F → Nat)
    (v : UnifiedVertex F) :
    hashUnifiedVertex w hasher v = v.components.foldl (combine w hasher) 0 := by
  rfl

theorem combine_eq_specStep {F : Type} (w : Nat) (hasher : F → Nat) (seed : Nat) (x : F) :
    combine w hasher seed x = specStep w hasher seed x := by
  unfold combine specStep SIZE_MOD
  have h1 : seed <<< 6 = seed * 64 := by rw [Nat.shiftLeft_eq]
  have h2 : seed >>> 2 = seed / 4 := by rw [Nat.shiftRight_eq_div_pow]
  rw [h1, h2]
  congr 1
  rw [Nat.add_right_comm (hasher x + 2654435769) (seed * 64 % 2 ^ w) (seed / 4),
    Nat.add_mod_mod, Nat.add_right_comm]

theorem exAbsOps_hashCompatible : HashCompatible exAbsOps exHasher := by
  constructor
  · intro u v h
    simp only [exAbsOps, Bool.and_eq_true, beq_iff_eq] at h
    simp [TRS.Vector3.range, exHasher, h.1.1, h.1.2, h.2]
  · intro u v h
    simp only [exAbsOps, Bool.and_eq_true, beq_iff_eq] at h
    simp [TRS.Vector2.range, exHasher, h.1, h.2]

/-! ## The claims on the hash -/

/-- C11: when `std::hash<float>` agrees with the comparison of the TRS vectors, two
vertices that compare equal with `operator==` have the same `std::hash<UnifiedVertex>`
value; and the hash is a function of the hash values of the eight components only. -/
theorem hashUnifiedVertex_respects_opEq {F : Type} (w : Nat) (ops : TRS.VectorOps F)
    (hasher : F → Nat) (a b : UnifiedVertex F) (hc : HashCompatible ops hasher) :
    (a.opEq ops b = true → hashUnifiedVertex w hasher a = hashUnifiedVertex w hasher b) ∧
    (a.components.map hasher = b.components.map hasher →
      hashUnifiedVertex w hasher a = hashUnifiedVertex w hasher b) := by
  have hfold : a.components.map hasher = b.components.map hasher →
      hashUnifiedVertex w hasher a = hashUnifiedVertex w hasher b := by
    intro hmap
    rw [hashUnifiedVertex_eq_foldl, hashUnifiedVertex_eq_foldl]
    exact foldl_combine_congr w hasher _ _ 0 hmap
  refine ⟨fun hab => hfold ?_, hfold⟩
  unfold UnifiedVertex.opEq at hab
  simp only [Bool.and_eq_true] at hab
  have hp := hc.1 _ _ hab.1.1
  have ht := hc.2 _ _ hab.1.2
  have hn := hc.1 _ _ hab.2
  simp only [TRS.Vector3.range, TRS.Vector2.range, List.map_cons, List.map_nil,
    List.cons.injEq, and_true] at hp ht hn
  simp [UnifiedVertex.components, hp, ht, hn]

/-- Witness of C11: two vertices that differ in the sign of a position component compare
equal under the example comparison and have the same hash. -/
theorem hashUnifiedVertex_respects_opEq_witness :
    exVertexA.opEq exAbsOps exVertexC = true ∧
    hashUnifiedVertex 64 exHasher exVertexA = hashUnifiedVertex 64 exHasher exVertexC :=
  ⟨by decide, (hashUnifiedVertex_respects_opEq 64 exAbsOps exHasher exVertexA exVertexC
    exAbsOps_hashCompatible).1 (by decide)⟩

/-- C12: `std::hash<UnifiedVertex>` is the sequential combine, from seed 0 and in
`size_t` arithmetic, of the eight components in the order position x, y, z, normal
x, y, z, uv u, v; and the combine of the three position components alone is
`std::hash<Vector3<float>>` of the position. -/
theorem hashUnifiedVertex_eq_specCombine {F : Type} (w : Nat) (hasher : F → Nat)
    (v : UnifiedVertex F) :
    hashUnifiedVertex w hasher v = specCombine w hasher v.components ∧
    specCombine w hasher
        [v.positionVertex.first, v.positionVertex.second, v.positionVertex.third] =
      hashVector3 w hasher v.positionVertex := by
  have hstep : combine w hasher = specStep w hasher :=
    funext fun seed => funext fun x => combine_eq_specStep w hasher seed x
  constructor
  · rw [hashUnifiedVertex_eq_foldl, hstep]
    rfl
  · unfold specCombine hashVector3
    rw [← hstep]
    rfl

end das2.obj

namespace das2

/-! ## Lemmas on the records -/

/-- The part of C13 that holds: whatever the arrays contain, a constructed mesh and a
constructed morph target have the sentinel in every id that is not an array element,
zero in every offset that is not an array element, and draw count zero. -/
theorem construct_scalar_fields (indet : Nat → Nat → Nat) :
    ((Mesh.construct indet).uIndexBufferId = SENTINEL ∧
      (Mesh.construct indet).uPositionVertexBufferId = SENTINEL ∧
      (Mesh.construct indet).uSurfaceNormalBufferId = SENTINEL ∧
      (Mesh.construct indet).uColorMultiplierId = SENTINEL ∧
      (Mesh.construct indet).uMaterialId = SENTINEL ∧
      (Mesh.construct indet).uIndexBufferOffset = 0 ∧
      (Mesh.construct indet).uPositionVertexBufferOffset = 0 ∧
      (Mesh.construct indet).uSurfaceNormalBufferOffset = 0 ∧
      (Mesh.construct indet).uColorMultiplierOffset = 0 ∧
      (Mesh.construct indet).uDrawCount = 0) ∧
    ((MorphTarget.construct indet).uIndexBufferId = SENTINEL ∧
      (MorphTarget.construct indet).uPositionVertexBufferId = SENTINEL ∧
      (MorphTarget.construct indet).uSurfaceNormalBufferId = SENTINEL ∧
      (MorphTarget.construct indet).uColorMultiplierId = SENTINEL ∧
      (MorphTarget.construct indet).uIndexBufferOffset = 0 ∧
      (MorphTarget.construct indet).uPositionVertexBufferOffset = 0 ∧
      (MorphTarget.construct indet).uSurfaceNormalBufferOffset = 0 ∧
      (MorphTarget.construct indet).uColorMultiplierOffset = 0) := by
  have hs : castU32 (-1) = SENTINEL := by decide
  simp [Mesh.construct, MorphTarget.construct, hs]

/-- The part of C14 that holds: assigning a string that is not empty and whose block
holds its characters and the terminating zero, to another object, gives an equal copy. -/
theorem BinString_assign_nonempty (self other : BinString) (cs : List Byte)
    (hdata : other.m_pData = some (cs ++ [0])) (hlen : cs.length = other.m_uLength)
    (hne : other.m_uLength ≠ 0) : BinString.assign true self other = some other := by
  unfold BinString.assign
  simp only [hne, ne_eq, not_false_eq_true, if_true, hdata, Option.getD_some]
  have hcopy : memcpy (newChars (other.m_uLength + 1)) (cs ++ [0]) other.m_uLength = cs ++ [0] := by
    unfold memcpy newChars
    rw [← hlen, List.take_left, List.drop_replicate]
    simp
  rw [hcopy, ← hdata]

/-- Self-assignment of the string `abc` keeps length and hash and leaves a block of
zeros: the characters are lost. -/
theorem BinString_assignSelf_zeroes :
    BinString.assignSelf true exStrAbc =
      some { m_uLength := 3, m_hshString := 891568578, m_pData := some [0, 0, 0, 0] } := by
  rfl

/-! ## The claims on the records -/

/-- C13 (the code at the failing input): in a value-initialised `Mesh` the eight UV ids,
the eight skeletal-joint-index ids and the eight skeletal-joint-weight ids are 0, and so
are the eight UV ids of a value-initialised `MorphTarget`; none of them is the sentinel
`0xFFFFFFFF`, which the ids outside the arrays do hold. -/
theorem construct_array_ids_not_sentinel :
    ((Mesh.construct valueInit).arrUVBufferIds = List.replicate 8 0 ∧
      (Mesh.construct valueInit).arrSkeletalJointIndexBufferIds = List.replicate 8 0 ∧
      (Mesh.construct valueInit).arrSkeletalJointWeightBufferIds = List.replicate 8 0 ∧
      (MorphTarget.construct valueInit).arrUVBufferIds = List.replicate 8 0) ∧
    (SENTINEL ∉ (Mesh.construct valueInit).arrUVBufferIds ∧
      SENTINEL ∉ (MorphTarget.construct valueInit).arrUVBufferIds) ∧
    ((Mesh.construct valueInit).uIndexBufferId = SENTINEL ∧
      (MorphTarget.construct valueInit).uIndexBufferId = SENTINEL) := by
  decide

/-- C14 (the code at the failing input): assigning the empty string to the string `abc`
copies length 0 and hash 0, and leaves the data pointer at the characters `abc`, while
`CString()` of the empty string is null, as is that of a copy-constructed empty
string. -/
theorem BinString_assign_empty_keeps_data :
    ((BinString.assign true exStrAbc exStrEmpty).map BinString.Length = some exStrEmpty.Length ∧
      (BinString.assign true exStrAbc exStrEmpty).map BinString.Hash = some exStrEmpty.Hash) ∧
    (BinString.assign true exStrAbc exStrEmpty).map BinString.CString =
      some (some [97, 98, 99, 0]) ∧
    exStrEmpty.CString = none ∧
    (BinString.copy true exStrEmpty).map BinString.CString = some none := by
  decide

/-- C15: every `Initialize` sets the tag of its own kind, and putting the former tag back
gives the former record, so no other field has changed; the codes of the twelve tags and
of `StructureIdentifier_Unknown`, the tag of a constructed buffer, mesh and morph
target, are pairwise distinct. -/
theorem Initialize_sets_only_the_tag {F M4 Q : Type} (buffer : Buffer) (mesh : Mesh)
    (morphTarget : MorphTarget) (meshGroup : MeshGroup) (node : Node F M4 Q) (scene : Scene)
    (skeletonJoint : SkeletonJoint F M4 Q) (skeleton : Skeleton) (animation : Animation)
    (animationChannel : AnimationChannel F Q) (materialPhong : MaterialPhong F)
    (materialPbr : MaterialPbr F) (indet : Nat → Nat → Nat) :
    ((buffer.Initialize.m_bStructure = StructureIdentifier.Buffer ∧
        { buffer.Initialize with m_bStructure := buffer.m_bStructure } = buffer) ∧
      (mesh.Initialize.m_bStructure = StructureIdentifier.Mesh ∧
        { mesh.Initialize with m_bStructure := mesh.m_bStructure } = mesh) ∧
      (morphTarget.Initialize.m_bStructure = StructureIdentifier.MorphTarget ∧
        { morphTarget.Initialize with m_bStructure := morphTarget.m_bStructure } = morphTarget) ∧
      (meshGroup.Initialize.m_bStructure = StructureIdentifier.MeshGroup ∧
        { meshGroup.Initialize with m_bStructure := meshGroup.m_bStructure } = meshGroup) ∧
      (node.Initialize.m_bStructure = StructureIdentifier.Node ∧
        { node.Initialize with m_bStructure := node.m_bStructure } = node) ∧
      (scene.Initialize.m_bStructure = StructureIdentifier.Scene ∧
        { scene.Initialize with m_bStructure := scene.m_bStructure } = scene) ∧
      (skeletonJoint.Initialize.m_bStructure = StructureIdentifier.SkeletonJoint ∧
        { skeletonJoint.Initialize with m_bStructure := skeletonJoint.m_bStructure } =
          skeletonJoint) ∧
      (skeleton.Initialize.m_bStructure = StructureIdentifier.Skeleton ∧
        { skeleton.Initialize with m_bStructure := skeleton.m_bStructure } = skeleton) ∧
      (animation.Initialize.m_bStructure = StructureIdentifier.Animation ∧
        { animation.Initialize with m_bStructure := animation.m_bStructure } = animation) ∧
      (animationChannel.Initialize.m_bStructure = StructureIdentifier.AnimationChannel ∧
        { animationChannel.Initialize with m_bStructure := animationChannel.m_bStructure } =
          animationChannel) ∧
      (materialPhong.Initialize.m_bStructure = StructureIdentifier.MaterialPhong ∧
        { materialPhong.Initialize with m_bStructure := materialPhong.m_bStructure } =
          materialPhong) ∧
      (materialPbr.Initialize.m_bStructure = StructureIdentifier.MaterialPbr ∧
        { materialPbr.Initialize with m_bStructure := materialPbr.m_bStructure } =
          materialPbr)) ∧
    ((StructureIdentifier.Unknown :: initializedTags).map StructureIdentifier.code).Nodup ∧
    (({} : Buffer).m_bStructure = StructureIdentifier.Unknown ∧
      (Mesh.construct indet).m_bStructure = StructureIdentifier.Unknown ∧
      (MorphTarget.construct indet).m_bStructure = StructureIdentifier.Unknown) := by
  refine ⟨⟨⟨rfl, rfl⟩, ⟨rfl, ?_⟩, ⟨rfl, rfl⟩, ⟨rfl, rfl⟩, ⟨rfl, rfl⟩, ⟨rfl, rfl⟩, ⟨rfl, rfl⟩,
    ⟨rfl, rfl⟩, ⟨rfl, rfl⟩, ⟨rfl, rfl⟩, ⟨rfl, rfl⟩, ⟨rfl, rfl⟩⟩, by decide, rfl, rfl, rfl⟩
  cases mesh
  rfl

end das2
